import Mathlib

/-!
Shallow embedding of `bin/cluBCpG/CalculateBinCoverage.py` (class
`CalculateCompleteBins`): per-bin coverage computation with its exception
handling, scaffold filtering, bin enumeration, report writing and the
class's counter state.

External collaborators (`BamFileReadParser.parse_reads`, `create_matrix`,
`correct_cpg_positions`) are out of scope and modelled as an arbitrary
behaviour record; reads are opaque tokens.  Python exceptions are modelled
explicitly: every exception class is a subclass of `BaseException`, so the
embedding records, for each raised exception, whether an
`except BaseException` clause matches it (it always does).
-/

/-- The Python exception classes the module distinguishes.  `noReadsError`
stands for the "no reads in this window" failure of `parse_reads`;
`invalidIndexError` is `pandas.core.indexes.base.InvalidIndexError`;
`valueError` is `ValueError`; `otherError n` is any other exception class. -/
inductive PyExc where
  | noReadsError : PyExc
  | invalidIndexError : PyExc
  | valueError : PyExc
  | otherError : Nat → PyExc
deriving DecidableEq, Repr

/-- Every Python exception is an instance of `BaseException`, so an
`except BaseException` clause matches every raised exception. -/
def PyExc.isBaseException : PyExc → Bool := fun _ => true

/-- Reads returned by `parse_reads` are opaque to the orchestrator; the
embedding names them with tokens. -/
abbrev Reads := Nat

/-- A pandas DataFrame as the module uses it: a fixed column set (CpG
positions) and one row per read, each cell a binary methylation call or
missing (NaN). -/
structure PdMatrix where
  ncols : Nat
  rows : List (List (Option Bool))
deriving DecidableEq, Repr

/-- Pandas `matrix.dropna(how="all")`: drop rows whose every cell is missing. -/
def PdMatrix.dropna_all (m : PdMatrix) : PdMatrix :=
  ⟨m.ncols, m.rows.filter (fun r => r.any (fun c => c.isSome))⟩

/-- Pandas `matrix.dropna()`: drop rows containing any missing cell. -/
def PdMatrix.dropna (m : PdMatrix) : PdMatrix :=
  ⟨m.ncols, m.rows.filter (fun r => r.all (fun c => c.isSome))⟩

/-- Python `len(matrix)`: the number of rows. -/
def PdMatrix.len (m : PdMatrix) : Nat := m.rows.length

/-- Pandas `matrix.shape[0]`: the number of rows. -/
def PdMatrix.shape0 (m : PdMatrix) : Nat := m.rows.length

/-- Pandas `matrix.shape[1]`: the number of columns. -/
def PdMatrix.shape1 (m : PdMatrix) : Nat := m.ncols

/-- One behaviour of the external collaborators for a run: what
`parse_reads`, `create_matrix` and `correct_cpg_positions` return or raise
at each input. -/
structure Collab where
  parse_reads : String → Int → Int → Except PyExc Reads
  create_matrix : Reads → Except PyExc PdMatrix
  correct_cpg_positions : Reads → Except PyExc Reads

/-- Observable side effects of one `calculate_bin_coverage` call:
the increment applied to `self.bins_no_reads`, the `logging.error`
messages emitted, and how many times `correct_cpg_positions` was called. -/
structure Trace where
  bins_no_reads_incr : Nat
  errors_logged : List String
  corrections : Nat
deriving DecidableEq, Repr

/-- Python `s.split(sep)` for a one-character separator: the maximal runs
of characters between occurrences of `sep` (empty runs included). -/
def py_split (sep : Char) (s : String) : List String :=
  (s.toList.foldr
    (fun ch acc =>
      if ch = sep then [] :: acc
      else
        match acc with
        | cur :: rest => (ch :: cur) :: rest
        | [] => [[ch]])
    [[]]).map String.mk

/-- Python `int(s)`: an optional minus sign followed by at least one
decimal digit; anything else raises `ValueError` (modelled as `none`). -/
def py_int? (s : String) : Option Int :=
  let digitsVal : List Char → Int :=
    fun cs => ((cs.foldl (fun acc c => 10 * acc + (c.toNat - 48)) 0 : Nat) : Int)
  match s.toList with
  | [] => none
  | '-' :: cs =>
    if cs ≠ [] && cs.all Char.isDigit then some (-(digitsVal cs)) else none
  | cs =>
    if cs.all Char.isDigit then some (digitsVal cs) else none

/-- Lines 50–51: `chromosome, bin_location = bin.split("_")` followed by
`bin_location = int(bin_location)`.  Unpacking raises `ValueError` unless
the split yields exactly two parts, and `int` raises `ValueError` on a
non-numeric string.  These lines sit outside every `try` block. -/
def decompose_bin (bin : String) : Except PyExc (String × Int) :=
  match py_split '_' bin with
  | [chromosome, loc] =>
    match py_int? loc with
    | some n => .ok (chromosome, n)
    | none => .error .valueError
  | _ => .error .valueError

/-- Lines 38–87, `calculate_bin_coverage`.  The result is `.error e` when an
exception `e` escapes the function, `.ok none` for `return None`, and
`.ok (some (bin, matrix))` for `return bin, matrix`; the `Trace` records the
side effects.  The `try` at line 52 dispatches a raised exception to the
first matching handler: `except BaseException` (line 55) matches whenever
`e.isBaseException`, and only otherwise would the bare `except` (line 59)
run.  The fallback `try` at line 71 catches exactly `InvalidIndexError`
and `ValueError`. -/
def calculate_bin_coverage (c : Collab) (bin_size : Int) (bin : String) :
    Except PyExc (Option (String × PdMatrix)) × Trace :=
  match decompose_bin bin with
  | .error e => (.error e, ⟨0, [], 0⟩)
  | .ok (chromosome, bin_location) =>
    match c.parse_reads chromosome (bin_location - bin_size) bin_location with
    | .error e =>
      if e.isBaseException then
        (.ok none, ⟨1, [], 0⟩)
      else
        (.ok none, ⟨0, ["Unknown error: " ++ bin], 0⟩)
    | .ok reads =>
      match c.create_matrix reads with
      | .error e =>
        if e.isBaseException then
          (.ok none, ⟨1, [], 0⟩)
        else
          (.ok none, ⟨0, ["Unknown error: " ++ bin], 0⟩)
      | .ok matrix0 =>
        let matrix := (matrix0.dropna_all).dropna
        if matrix.len = 0 then
          let original_matrix := matrix
          match c.correct_cpg_positions reads with
          | .error e => (.error e, ⟨0, [], 1⟩)
          | .ok reads2 =>
            match c.create_matrix reads2 with
            | .error .invalidIndexError =>
              (.ok (some (bin, original_matrix)),
               ⟨0, ["Invalid Index error when creating matrices at bin " ++ bin], 1⟩)
            | .error .valueError =>
              (.ok (some (bin, matrix.dropna)),
               ⟨0, ["Matrix concat error ar bin " ++ bin], 1⟩)
            | .error e => (.error e, ⟨0, [], 1⟩)
            | .ok matrix2 =>
              (.ok (some (bin, matrix2.dropna)), ⟨0, [], 1⟩)
        else
          (.ok (some (bin, matrix)), ⟨0, [], 0⟩)

/-- Python `key.startswith(p)`: `p` is a prefix of `key`, case-sensitive. -/
def py_startswith (key p : String) : Bool :=
  p.toList.isPrefixOf key.toList

/-- Python `d.pop(k)` on a dict modelled as an association list: remove the
entry with key `k`. -/
def dict_pop (d : List (String × Nat)) (k : String) : List (String × Nat) :=
  d.filter (fun kv => kv.1 ≠ k)

/-- Lines 98–111, `remove_scaffolds`: copy the dict, then pop every key that
does not start with `"chr"`. -/
def remove_scaffolds (chromosome_len_dict : List (String × Nat)) :
    List (String × Nat) :=
  chromosome_len_dict.foldl
    (fun new_dict kv =>
      if ¬ py_startswith kv.1 "chr" then dict_pop new_dict kv.1 else new_dict)
    chromosome_len_dict

/-- Numpy `np.arange(start, stop, step)` on nonnegative integers with `step > 0`:
`start, start + step, …`, strictly below `stop`.  The fuel argument
(`stop - start` at the top call) bounds the recursion; each step consumes
one unit of fuel while advancing `start` by `step ≥ 1`. -/
def arangeAux : Nat → Nat → Nat → Nat → List Nat
  | 0, _, _, _ => []
  | fuel + 1, start, stop, step =>
    if start < stop then start :: arangeAux fuel (start + step) stop step
    else []

/-- Numpy `np.arange(start, stop, step)` for `step > 0` (the module always calls
it with `step = bin_size > 0`; `step = 0` is mapped to the empty list). -/
def arange (start stop step : Nat) : List Nat :=
  if step = 0 then [] else arangeAux (stop - start) start stop step

/-- Line 122 for one chromosome of length `L`:
`np.arange(bin_size, L + bin_size, bin_size)`, the bin end-coordinates. -/
def binCoords (L bin_size : Nat) : List Nat :=
  arange bin_size (L + bin_size) bin_size

/-- Lines 113–126, `generate_bins_list`: for each chromosome its list of
bin identifier strings `key ++ "_" ++ str(x)` over the end-coordinates. -/
def generate_bins_list (bin_size : Nat)
    (chromosome_len_dict : List (String × Nat)) :
    List (String × List String) :=
  chromosome_len_dict.map
    (fun kv =>
      (kv.1, (binCoords kv.2 bin_size).map
        (fun x => kv.1 ++ "_" ++ toString x)))

/-- Python `os.path.basename(p)`: the part of `p` after the last `/`. -/
def os_path_basename (p : String) : String :=
  (py_split '/' p).getLastD ""

/-- Python `os.path.join(dir, name)` for a relative `name`: `dir ++ "/" ++ name`,
with no separator inserted when `dir` is empty or already ends in `/`. -/
def os_path_join (dir name : String) : String :=
  if dir = "" then name
  else if dir.toList.getLastD ' ' = '/' then dir ++ name
  else dir ++ "/" ++ name

/-- Python str-formatting of an optional string: formatting `None` yields
the four-character string `"None"`, not the empty string. -/
def py_format_opt (x : Option String) : String :=
  match x with
  | none => "None"
  | some s => s

/-- Line 172: the report path, joining the output directory with the name
`CompleteBins.<basename of input_bam_file>.<formatted individual_chrom>.csv`. -/
def output_file_name (output_directory input_bam_file : String)
    (individual_chrom : Option String) : String :=
  os_path_join output_directory
    ("CompleteBins." ++ os_path_basename input_bam_file ++ "." ++
      py_format_opt individual_chrom ++ ".csv")

/-- Lines 174–182: the loop writing the report.  `result` is `None` or the
pair `(bin, matrix)`; a pair is always truthy in Python, so `if result:`
keeps exactly the non-`None` entries.  The three `out.write` calls emit
`bin ++ ","`, `str(shape[0]) ++ ","` and `str(shape[1]) ++ "\n"`. -/
def write_report (final_results : List (Option (String × PdMatrix))) : String :=
  final_results.foldl
    (fun out result =>
      match result with
      | some p =>
        out ++ p.1 ++ "," ++ toString p.2.shape0 ++ "," ++
          toString p.2.shape1 ++ "\n"
      | none => out)
    ""

/-- The report line the spec describes for one present result: the bin
identifier and the matrix's row and column counts, comma-separated, ending
in a newline. -/
def report_line_spec (p : String × PdMatrix) : String :=
  p.1 ++ "," ++ toString p.2.shape0 ++ "," ++ toString p.2.shape1 ++ "\n"

/-- The report the spec describes: one line per non-`None` result, in
order, and no line for a `None` result. -/
def report_lines_spec (final_results : List (Option (String × PdMatrix))) :
    List String :=
  final_results.filterMap (fun r => r.map report_line_spec)

/-- Concatenation of a list of lines into the written file. -/
def catLines (lines : List String) : String :=
  lines.foldr (fun a b => a ++ b) ""

/-- The mutable counter state of a `CalculateCompleteBins` object
(lines 29–30). -/
structure CCBState where
  bins_no_reads : Nat
  bins_yes_reads : Nat
deriving DecidableEq, Repr

/-- Constructor `__init__` sets both counters to `0` (lines 29–30). -/
def CCBState.init : CCBState := ⟨0, 0⟩

/-- One operation on a `CalculateCompleteBins` object.  `calcBin` is one
`calculate_bin_coverage` call; `analyzeBins` runs it over a list of bins;
the remaining methods read no counter and write none. -/
inductive Op where
  | calcBin : Collab → Int → String → Op
  | analyzeBins : Collab → Int → List String → Op
  | removeScaffolds : List (String × Nat) → Op
  | generateBinsList : Nat → List (String × Nat) → Op

/-- The effect of one operation on the counter state: only
`self.bins_no_reads += 1` (line 57) ever writes a counter. -/
def applyOp (s : CCBState) : Op → CCBState
  | .calcBin c bs bin =>
    { s with bins_no_reads :=
        s.bins_no_reads + (calculate_bin_coverage c bs bin).2.bins_no_reads_incr }
  | .analyzeBins c bs bins =>
    { s with bins_no_reads :=
        s.bins_no_reads +
          (bins.map (fun b => (calculate_bin_coverage c bs b).2.bins_no_reads_incr)).sum }
  | .removeScaffolds _ => s
  | .generateBinsList _ _ => s

/-- A sequence of operations applied to a state. -/
def runOps (s : CCBState) (ops : List Op) : CCBState :=
  ops.foldl applyOp s

/-- A collaborator behaviour whose `parse_reads` raises the expected
"no reads in this window" error. -/
def c1_noreads_collab : Collab :=
  ⟨fun _ _ _ => .error .noReadsError, fun _ => .ok ⟨0, []⟩, fun r => .ok r⟩

/-- A collaborator behaviour whose `parse_reads` raises an unexpected
exception class (neither the no-reads error, `InvalidIndexError` nor
`ValueError`). -/
def c1_unknown_collab : Collab :=
  ⟨fun _ _ _ => .error (.otherError 0), fun _ => .ok ⟨0, []⟩, fun r => .ok r⟩

/-- A collaborator behaviour that reaches the correction fallback (the
built matrix has one all-missing row, so the candidate is empty) and whose
`correct_cpg_positions` raises an unexpected exception. -/
def c2_collab : Collab :=
  ⟨fun _ _ _ => .ok 0, fun _ => .ok ⟨1, [[none]]⟩, fun _ => .error (.otherError 7)⟩

/-- A collaborator behaviour that reaches the correction fallback and whose
matrix rebuild from the corrected reads raises `InvalidIndexError`. -/
def c7_collab : Collab :=
  ⟨fun _ _ _ => .ok 0,
   fun r => if r = 0 then .ok ⟨1, [[none]]⟩ else .error .invalidIndexError,
   fun _ => .ok 1⟩

/-- Whether an entry of the starting dict survives the pop loop of
`remove_scaffolds` over the (remaining) iteration list `todo`: no entry of
`todo` with the same key fails the `"chr"` test. -/
def survives (todo : List (String × Nat)) (e : String × Nat) : Bool :=
  todo.all (fun kv => py_startswith kv.1 "chr" || e.1 ≠ kv.1)

example :
    calculate_bin_coverage c1_noreads_collab
      100 "chr1_100" = (.ok none, ⟨1, [], 0⟩) := rfl

example : binCoords 250 100 = [100, 200, 300] := rfl

example : binCoords 200 100 = [100, 200] := rfl

example : remove_scaffolds [("chr1", 5), ("scaf", 7), ("chr2", 9)] =
    [("chr1", 5), ("chr2", 9)] := rfl

example : output_file_name "out" "d/sample.bam" none =
    "out/CompleteBins.sample.bam.None.csv" := rfl

example : write_report [some ("chr1_100", ⟨3, [[some true], [some false]]⟩), none] =
    "chr1_100,2,3\n" := rfl

/-! ## Helper lemmas -/

theorem arangeAux_closed (step : Nat) (hstep : 0 < step) :
    ∀ (fuel s t : Nat), t - s ≤ fuel →
      arangeAux fuel s t step =
        (List.range ((t - s + step - 1) / step)).map (fun i => s + i * step) := by
  intro fuel
  induction fuel with
  | zero =>
    intro s t h
    have hts : t - s = 0 := by omega
    rw [arangeAux, hts, Nat.div_eq_of_lt (by omega)]
    simp
  | succ f ih =>
    intro s t h
    by_cases hst : s < t
    · rw [arangeAux, if_pos hst, ih (s + step) t (by omega)]
      have hn' : (t - (s + step) + step - 1) / step = (t - s - 1) / step := by
        rcases Nat.lt_or_ge t (s + step) with hc | hc
        · have e1 : t - (s + step) = 0 := by omega
          rw [e1, Nat.div_eq_of_lt (by omega), Nat.div_eq_of_lt (by omega)]
        · congr 1
          omega
      have hn : t - s + step - 1 = (t - s - 1) + step := by omega
      rw [hn', hn, Nat.add_div_right _ hstep, List.range_succ_eq_map]
      simp only [Function.comp_def, Nat.succ_eq_add_one, Nat.zero_mul, Nat.add_zero,
        List.map_cons, List.map_map]
      congr 1
      apply List.map_congr_left
      intro a _
      ring
    · rw [arangeAux, if_neg hst]
      have hts : t - s = 0 := by omega
      rw [hts, Nat.div_eq_of_lt (by omega)]
      simp

theorem binCoords_closed (L B : Nat) (hB : 0 < B) :
    binCoords L B = (List.range ((L + B - 1) / B)).map (fun i => B + i * B) := by
  rw [binCoords, arange, if_neg (by omega)]
  rw [arangeAux_closed B hB (L + B - B) B (L + B) (by omega)]
  have hnum : L + B - B + B - 1 = L + B - 1 := by omega
  rw [hnum]

theorem remove_scaffolds_foldl (todo : List (String × Nat)) :
    ∀ acc : List (String × Nat),
      todo.foldl
        (fun new_dict kv =>
          if ¬ py_startswith kv.1 "chr" then dict_pop new_dict kv.1 else new_dict)
        acc
      = acc.filter (survives todo) := by
  induction todo with
  | nil =>
    intro acc
    have h : ∀ e : String × Nat, survives [] e = true := by
      intro e
      simp [survives]
    rw [List.foldl_nil, List.filter_eq_self.mpr (fun a _ => h a)]
  | cons kv rest ih =>
    intro acc
    rw [List.foldl_cons, ih]
    by_cases h : py_startswith kv.1 "chr"
    · rw [if_neg (by simp [h])]
      apply List.filter_congr
      intro x _
      simp [survives, h]
    · rw [if_pos (by simp [h])]
      rw [dict_pop, List.filter_filter]
      apply List.filter_congr
      intro x _
      simp [survives, h, Bool.and_comm]

theorem remove_scaffolds_eq_filter (d : List (String × Nat)) :
    remove_scaffolds d = d.filter (fun kv => py_startswith kv.1 "chr") := by
  rw [remove_scaffolds, remove_scaffolds_foldl]
  apply List.filter_congr
  intro e he
  by_cases hp : py_startswith e.1 "chr"
  · simp only [hp]
    simp only [survives, List.all_eq_true]
    intro kv _
    by_cases hk : e.1 = kv.1
    · simp [← hk, hp]
    · simp [hk]
  · simp only [hp, survives]
    rw [List.all_eq_false]
    exact ⟨e, he, by simp [hp]⟩

theorem write_report_go (rs : List (Option (String × PdMatrix))) :
    ∀ acc : String,
      rs.foldl
        (fun out result =>
          match result with
          | some p =>
            out ++ p.1 ++ "," ++ toString p.2.shape0 ++ "," ++
              toString p.2.shape1 ++ "\n"
          | none => out)
        acc
      = acc ++ catLines (report_lines_spec rs) := by
  induction rs with
  | nil =>
    intro acc
    simp [report_lines_spec, catLines]
  | cons r rest ih =>
    intro acc
    cases r with
    | none =>
      rw [List.foldl_cons, ih]
      simp [report_lines_spec]
    | some p =>
      rw [List.foldl_cons, ih]
      simp only [report_lines_spec, List.filterMap_cons, Option.map_some']
      simp only [catLines, List.foldr_cons, report_line_spec]
      simp [String.append_assoc]

theorem applyOp_bins_yes_reads (s : CCBState) (op : Op) :
    (applyOp s op).bins_yes_reads = s.bins_yes_reads := by
  cases op <;> rfl

theorem runOps_bins_yes_reads (ops : List Op) :
    ∀ s : CCBState, (runOps s ops).bins_yes_reads = s.bins_yes_reads := by
  induction ops with
  | nil =>
    intro s
    rfl
  | cons op rest ih =>
    intro s
    rw [runOps, List.foldl_cons]
    have h := ih (applyOp s op)
    rw [runOps] at h
    rw [h, applyOp_bins_yes_reads]

/-! ## Claim theorems -/

/-- C1.  The `try` at lines 52–61 does not classify exceptions: because the
first handler is `except BaseException`, every exception raised by the read
fetch or the initial matrix build — the expected no-reads error and an
unexpected exception class alike — increments `bins_no_reads` by one,
returns `None` and logs nothing; the "Unknown error" handler is
unreachable. -/
theorem calculate_bin_coverage_broad_catch_counts_unexpected_as_no_reads :
    calculate_bin_coverage c1_noreads_collab 100 "chr1_100" =
      (.ok none, ⟨1, [], 0⟩) ∧
    calculate_bin_coverage c1_unknown_collab 100 "chr1_100" =
      (.ok none, ⟨1, [], 0⟩) :=
  ⟨rfl, rfl⟩

/-- C2 counterexample.  With a behaviour whose `correct_cpg_positions`
raises (at bin "chr1_100", after an empty candidate matrix), the exception
escapes `calculate_bin_coverage`: the claim that no exception ever escapes
is false. -/
theorem correct_cpg_positions_exception_escapes :
    (calculate_bin_coverage c2_collab 100 "chr1_100").1 =
      .error (.otherError 7) := rfl

/-- C2 amended.  An exception `e` escapes `calculate_bin_coverage` exactly
when it is raised while decomposing the bin identifier, or — after the
initial fetch/build succeeded with an empty candidate matrix — by
`correct_cpg_positions`, or by the fallback matrix rebuild with `e` neither
`InvalidIndexError` nor `ValueError`.  In particular every exception of the
initial `parse_reads`/`create_matrix` phase is caught. -/
theorem calculate_bin_coverage_escape_characterization (c : Collab)
    (bin_size : Int) (bin : String) (e : PyExc) :
    (calculate_bin_coverage c bin_size bin).1 = .error e ↔
      decompose_bin bin = .error e ∨
      ∃ ch loc rd m,
        decompose_bin bin = .ok (ch, loc) ∧
        c.parse_reads ch (loc - bin_size) loc = .ok rd ∧
        c.create_matrix rd = .ok m ∧
        ((m.dropna_all).dropna).len = 0 ∧
        (c.correct_cpg_positions rd = .error e ∨
         ∃ rd2, c.correct_cpg_positions rd = .ok rd2 ∧
           c.create_matrix rd2 = .error e ∧
           e ≠ .invalidIndexError ∧ e ≠ .valueError) := by
  constructor
  · intro hesc
    rcases hd : decompose_bin bin with e0 | ⟨ch, loc⟩
    · simp [calculate_bin_coverage, hd] at hesc
      subst hesc
      exact .inl rfl
    · rcases hp : c.parse_reads ch (loc - bin_size) loc with e1 | rd
      · simp [calculate_bin_coverage, hd, hp, PyExc.isBaseException] at hesc
      · rcases hm : c.create_matrix rd with e2 | m
        · simp [calculate_bin_coverage, hd, hp, hm, PyExc.isBaseException] at hesc
        · by_cases hlen : ((m.dropna_all).dropna).len = 0
          · rcases hc : c.correct_cpg_positions rd with e3 | rd2
            · simp [calculate_bin_coverage, hd, hp, hm, hlen, hc] at hesc
              subst hesc
              exact .inr ⟨ch, loc, rd, m, rfl, hp, hm, hlen, .inl hc⟩
            · rcases hm2 : c.create_matrix rd2 with e4 | m2
              · cases e4 with
                | noReadsError =>
                  simp [calculate_bin_coverage, hd, hp, hm, hlen, hc, hm2] at hesc
                  subst hesc
                  exact .inr ⟨ch, loc, rd, m, rfl, hp, hm, hlen,
                    .inr ⟨rd2, hc, hm2, by simp, by simp⟩⟩
                | invalidIndexError =>
                  simp [calculate_bin_coverage, hd, hp, hm, hlen, hc, hm2] at hesc
                | valueError =>
                  simp [calculate_bin_coverage, hd, hp, hm, hlen, hc, hm2] at hesc
                | otherError n =>
                  simp [calculate_bin_coverage, hd, hp, hm, hlen, hc, hm2] at hesc
                  subst hesc
                  exact .inr ⟨ch, loc, rd, m, rfl, hp, hm, hlen,
                    .inr ⟨rd2, hc, hm2, by simp, by simp⟩⟩
              · simp [calculate_bin_coverage, hd, hp, hm, hlen, hc, hm2] at hesc
          · simp [calculate_bin_coverage, hd, hp, hm, hlen] at hesc
  · rintro (hd' | ⟨ch, loc, rd, m, hd', hp', hm', hlen', hrest⟩)
    · simp [calculate_bin_coverage, hd']
    · rcases hrest with hc' | ⟨rd2, hc', hm2', hne1, hne2⟩
      · simp [calculate_bin_coverage, hd', hp', hm', hlen', hc']
      · cases e with
        | noReadsError =>
          simp [calculate_bin_coverage, hd', hp', hm', hlen', hc', hm2']
        | invalidIndexError => exact absurd rfl hne1
        | valueError => exact absurd rfl hne2
        | otherError n =>
          simp [calculate_bin_coverage, hd', hp', hm', hlen', hc', hm2']

/-- C3 counterexample.  For chromosome length 200 and bin size 100 (where
the bin size divides the length) the produced end-coordinates are
`[100, 200]`: the sequence stops strictly below `L + B`, so the final
end-coordinate `300 = L + B` predicted by the claim is absent. -/
theorem binCoords_exclusive_bound_counterexample :
    binCoords 200 100 = [100, 200] ∧ (200 + 100) ∉ binCoords 200 100 := by
  constructor
  · rfl
  · decide

/-- C3 amended.  For bin size `B > 0` the end-coordinates for a chromosome
of length `L` are exactly the positive multiples of `B` strictly below
`L + B` (`np.arange` excludes its upper bound), so when `B` divides `L`
(and `L > 0`) the largest end-coordinate is `L`, not `L + B`. -/
theorem binCoords_strict_upper_bound (L B : Nat) (hB : 0 < B) :
    (∀ x, x ∈ binCoords L B ↔ 0 < x ∧ B ∣ x ∧ x < L + B) ∧
    (B ∣ L → 0 < L → L ∈ binCoords L B ∧ ∀ x ∈ binCoords L B, x ≤ L) := by
  have hdm := Nat.div_add_mod (L + B - 1) B
  have hmlt : (L + B - 1) % B < B := Nat.mod_lt _ hB
  have hmem : ∀ x, x ∈ binCoords L B ↔ 0 < x ∧ B ∣ x ∧ x < L + B := by
    intro x
    rw [binCoords_closed L B hB]
    constructor
    · intro hx
      rcases List.mem_map.mp hx with ⟨i, hi, rfl⟩
      rw [List.mem_range] at hi
      refine ⟨by omega, ⟨i + 1, by ring⟩, ?_⟩
      have h1 : (i + 1) * B ≤ ((L + B - 1) / B) * B :=
        Nat.mul_le_mul (by omega) (Nat.le_refl B)
      have h2 : (i + 1) * B = i * B + B := by ring
      have h3 : B * ((L + B - 1) / B) = ((L + B - 1) / B) * B := Nat.mul_comm _ _
      omega
    · rintro ⟨hpos, ⟨k, rfl⟩, hlt⟩
      cases k with
      | zero => simp at hpos
      | succ j =>
        refine List.mem_map.mpr ⟨j, List.mem_range.mpr ?_, by ring⟩
        have h1 : j + 1 ≤ (L + B - 1) / B := by
          rw [Nat.le_div_iff_mul_le hB]
          have h2 : (j + 1) * B = B * (j + 1) := Nat.mul_comm _ _
          omega
        omega
  refine ⟨hmem, fun hdvd hL => ⟨?_, ?_⟩⟩
  · exact (hmem L).mpr ⟨hL, hdvd, by omega⟩
  · intro x hx
    rcases (hmem x).mp hx with ⟨hpos, ⟨k, rfl⟩, hlt⟩
    rcases hdvd with ⟨m, rfl⟩
    have e1 : B * (m + 1) = B * m + B := by ring
    have h1 : B * k < B * (m + 1) := by omega
    have h2 : k < m + 1 := Nat.lt_of_mul_lt_mul_left h1
    exact Nat.mul_le_mul (Nat.le_refl B) (by omega)

/-- C3 witness: the amended statement at `L = 200`, `B = 100`. -/
theorem binCoords_strict_upper_bound_witness :
    (∀ x, x ∈ binCoords 200 100 ↔ 0 < x ∧ 100 ∣ x ∧ x < 200 + 100) ∧
    (100 ∣ 200 → 0 < 200 →
      200 ∈ binCoords 200 100 ∧ ∀ x ∈ binCoords 200 100, x ≤ 200) :=
  binCoords_strict_upper_bound 200 100 (by decide)

/-- C4.  For `B > 0`: a chromosome of length `L` gets one bin per
end-coordinate of `binCoords L B`; there are `(L + B - 1) / B = ⌈L / B⌉`
of them (the two product bounds pin the count as the ceiling of `L / B`),
strictly increasing, each a positive multiple of `B`, the largest at most
`L + B`. -/
theorem binCoords_count_and_bounds (L B : Nat) (hB : 0 < B) :
    (∀ key : String, generate_bins_list B [(key, L)] =
      [(key, (binCoords L B).map (fun x => key ++ "_" ++ toString x))]) ∧
    (binCoords L B).length = (L + B - 1) / B ∧
    L ≤ (binCoords L B).length * B ∧
    (binCoords L B).length * B < L + B ∧
    (binCoords L B).Pairwise (· < ·) ∧
    ∀ x ∈ binCoords L B, 0 < x ∧ B ∣ x ∧ x ≤ L + B := by
  have hdm := Nat.div_add_mod (L + B - 1) B
  have hmlt : (L + B - 1) % B < B := Nat.mod_lt _ hB
  have hmul : B * ((L + B - 1) / B) = ((L + B - 1) / B) * B := Nat.mul_comm _ _
  have hlen : (binCoords L B).length = (L + B - 1) / B := by
    rw [binCoords_closed L B hB]
    simp
  refine ⟨fun key => rfl, hlen, ?_, ?_, ?_, ?_⟩
  · rw [hlen]; omega
  · rw [hlen]; omega
  · rw [binCoords_closed L B hB]
    rw [List.pairwise_map]
    exact (List.pairwise_lt_range _).imp
      (fun h => by
        have := (Nat.mul_lt_mul_right hB).mpr h
        omega)
  · intro x hx
    rw [binCoords_closed L B hB] at hx
    rcases List.mem_map.mp hx with ⟨i, hi, rfl⟩
    rw [List.mem_range] at hi
    refine ⟨by omega, ⟨i + 1, by ring⟩, ?_⟩
    have h1 : (i + 1) * B ≤ ((L + B - 1) / B) * B :=
      Nat.mul_le_mul (by omega) (Nat.le_refl B)
    have h2 : (i + 1) * B = i * B + B := by ring
    omega

/-- C4 witness: the statement at `L = 250`, `B = 100` (the spec's scenario,
three bins). -/
theorem binCoords_count_and_bounds_witness :
    (∀ key : String, generate_bins_list 100 [(key, 250)] =
      [(key, (binCoords 250 100).map (fun x => key ++ "_" ++ toString x))]) ∧
    (binCoords 250 100).length = (250 + 100 - 1) / 100 ∧
    250 ≤ (binCoords 250 100).length * 100 ∧
    (binCoords 250 100).length * 100 < 250 + 100 ∧
    (binCoords 250 100).Pairwise (· < ·) ∧
    ∀ x ∈ binCoords 250 100, 0 < x ∧ 100 ∣ x ∧ x ≤ 250 + 100 :=
  binCoords_count_and_bounds 250 100 (by decide)

/-- C5.  `correct_cpg_positions` is called at most once per bin, and it is
called exactly once iff the initial fetch and build succeeded and the
candidate matrix — after dropping all-missing rows and then rows with any
missing value — has zero rows; it is never called when the candidate is
non-empty. -/
theorem correction_fallback_iff_empty_candidate (c : Collab)
    (bin_size : Int) (bin : String) :
    (calculate_bin_coverage c bin_size bin).2.corrections ≤ 1 ∧
    ((calculate_bin_coverage c bin_size bin).2.corrections = 1 ↔
      ∃ ch loc rd m,
        decompose_bin bin = .ok (ch, loc) ∧
        c.parse_reads ch (loc - bin_size) loc = .ok rd ∧
        c.create_matrix rd = .ok m ∧
        ((m.dropna_all).dropna).len = 0) := by
  rcases hd : decompose_bin bin with e0 | ⟨ch, loc⟩
  · refine ⟨by simp [calculate_bin_coverage, hd], ?_⟩
    simp [calculate_bin_coverage, hd]
  · rcases hp : c.parse_reads ch (loc - bin_size) loc with e1 | rd
    · refine ⟨by simp [calculate_bin_coverage, hd, hp, PyExc.isBaseException], ?_⟩
      simp only [calculate_bin_coverage, hd, hp, PyExc.isBaseException]
      constructor
      · intro h
        simp at h
      · rintro ⟨ch', loc', rd', m', hd'', hp'', _, _⟩
        obtain ⟨rfl, rfl⟩ : ch = ch' ∧ loc = loc' := by simpa using hd''
        simp [hp] at hp''
    · rcases hm : c.create_matrix rd with e2 | m
      · refine ⟨by simp [calculate_bin_coverage, hd, hp, hm, PyExc.isBaseException], ?_⟩
        simp only [calculate_bin_coverage, hd, hp, hm, PyExc.isBaseException]
        constructor
        · intro h
          simp at h
        · rintro ⟨ch', loc', rd', m', hd'', hp'', hm'', _⟩
          obtain ⟨rfl, rfl⟩ : ch = ch' ∧ loc = loc' := by simpa using hd''
          obtain rfl : rd = rd' := by simpa [hp] using hp''
          simp [hm] at hm''
      · by_cases hlen : ((m.dropna_all).dropna).len = 0
        · have hval :
              (calculate_bin_coverage c bin_size bin).2.corrections = 1 := by
            rcases hc : c.correct_cpg_positions rd with e3 | rd2
            · simp [calculate_bin_coverage, hd, hp, hm, hlen, hc]
            · rcases hm2 : c.create_matrix rd2 with e4 | m2
              · cases e4 <;>
                  simp [calculate_bin_coverage, hd, hp, hm, hlen, hc, hm2]
              · simp [calculate_bin_coverage, hd, hp, hm, hlen, hc, hm2]
          refine ⟨by omega, ?_⟩
          rw [hval]
          simp only [true_iff]
          exact ⟨ch, loc, rd, m, rfl, hp, hm, hlen⟩
        · refine ⟨by simp [calculate_bin_coverage, hd, hp, hm, hlen], ?_⟩
          simp only [calculate_bin_coverage, hd, hp, hm, hlen]
          constructor
          · intro h
            simp [hlen] at h
          · rintro ⟨ch', loc', rd', m', hd'', hp'', hm'', hlen''⟩
            obtain ⟨rfl, rfl⟩ : ch = ch' ∧ loc = loc' := by simpa using hd''
            obtain rfl : rd = rd' := by simpa [hp] using hp''
            obtain rfl : m = m' := by simpa [hm] using hm''
            exact absurd hlen'' hlen

/-- C6.  The written report is the concatenation of exactly one line per
bin whose result is present (`bin,rows,cols` with a trailing newline), in
the original order; a `None` result contributes no line at all. -/
theorem write_report_one_line_per_present_result
    (final_results : List (Option (String × PdMatrix))) :
    write_report final_results = catLines (report_lines_spec final_results) := by
  rw [write_report, write_report_go]
  simp

/-- C7.  When the bin reaches the correction fallback and the rebuild from
the corrected reads raises `InvalidIndexError`, the function logs the
error with the bin identifier and returns the bin paired with the
original (pre-correction, empty) candidate matrix; the exception does not
escape. -/
theorem correction_invalid_index_returns_original (c : Collab)
    (bin_size : Int) (bin ch : String) (loc : Int) (rd rd2 : Reads)
    (m : PdMatrix)
    (h1 : decompose_bin bin = .ok (ch, loc))
    (h2 : c.parse_reads ch (loc - bin_size) loc = .ok rd)
    (h3 : c.create_matrix rd = .ok m)
    (h4 : ((m.dropna_all).dropna).len = 0)
    (h5 : c.correct_cpg_positions rd = .ok rd2)
    (h6 : c.create_matrix rd2 = .error .invalidIndexError) :
    calculate_bin_coverage c bin_size bin =
      (.ok (some (bin, (m.dropna_all).dropna)),
       ⟨0, ["Invalid Index error when creating matrices at bin " ++ bin], 1⟩) := by
  simp [calculate_bin_coverage, h1, h2, h3, h4, h5, h6]

/-- C7 witness: the theorem at the concrete behaviour `c7_collab` and bin
"chr1_100"; the returned matrix is the empty pre-correction candidate. -/
theorem correction_invalid_index_returns_original_witness :
    calculate_bin_coverage c7_collab 100 "chr1_100" =
      (.ok (some ("chr1_100", ⟨1, []⟩)),
       ⟨0, ["Invalid Index error when creating matrices at bin chr1_100"], 1⟩) :=
  correction_invalid_index_returns_original c7_collab 100 "chr1_100" "chr1"
    100 0 1 ⟨1, [[none]]⟩ rfl rfl rfl rfl rfl rfl

/-- C8 counterexample.  With no single-chromosome restriction the
chromosome component of the report name is the string "None"
(Python formats `None` that way), not the empty component the claim
states. -/
theorem output_file_name_none_component :
    output_file_name "out" "data/sample.bam" none =
      "out/CompleteBins.sample.bam.None.csv" ∧
    output_file_name "out" "data/sample.bam" none ≠
      "out/CompleteBins.sample.bam..csv" := by
  constructor
  · rfl
  · decide

/-- C8 amended.  The report file is
`CompleteBins.<source basename>.<chromosome component>.csv` inside the
output directory, where the chromosome component is the requested
chromosome when one is given and the string "None" (not empty) when none
is. -/
theorem output_file_name_scheme (dir bam : String) (chrom : Option String) :
    output_file_name dir bam chrom =
      os_path_join dir
        ("CompleteBins." ++ os_path_basename bam ++ "." ++
          chrom.getD "None" ++ ".csv") := by
  cases chrom <;> rfl

/-- C9.  `remove_scaffolds` keeps exactly the entries whose key starts with
"chr" (case-sensitive prefix), in order, and is idempotent. -/
theorem remove_scaffolds_filter_and_idempotent (d : List (String × Nat)) :
    remove_scaffolds d = d.filter (fun kv => py_startswith kv.1 "chr") ∧
    (∀ kv, kv ∈ remove_scaffolds d ↔
      kv ∈ d ∧ py_startswith kv.1 "chr" = true) ∧
    remove_scaffolds (remove_scaffolds d) = remove_scaffolds d := by
  refine ⟨remove_scaffolds_eq_filter d, ?_, ?_⟩
  · intro kv
    rw [remove_scaffolds_eq_filter]
    exact List.mem_filter
  · rw [remove_scaffolds_eq_filter, remove_scaffolds_eq_filter,
      List.filter_filter]
    apply List.filter_congr
    intro x _
    simp

/-- C10.  `bins_yes_reads` is `0` at construction and no operation of the
class ever writes it, so it is still `0` after every sequence of
operations. -/
theorem bins_yes_reads_constant_zero :
    CCBState.init.bins_yes_reads = 0 ∧
    ∀ ops : List Op, (runOps CCBState.init ops).bins_yes_reads = 0 :=
  ⟨rfl, fun ops => runOps_bins_yes_reads ops CCBState.init⟩
